import Mathlib

set_option maxRecDepth 20000

/-!
Shallow embedding of the todo application's task-ownership and task-lifecycle
logic. The data model and store operations follow the SQLModel models and the
query patterns in `specs/database/schema.md`, the route handlers follow the
backend guidelines and `specs/features/authentication.md`, and the form/list
logic follows the frontend components (`TaskForm`, `TaskItem`, `TaskList`, the
tasks page). Timestamps are modelled as natural numbers; identifiers are the
store's auto-incrementing integers and opaque user-id strings.
-/

namespace TodoApp

/-- Removing leading and trailing whitespace from a character list: the
semantics of JavaScript's `trim()` and the trimming the spec requires before
length validation. -/
def trimChars (l : List Char) : List Char :=
  ((l.dropWhile Char.isWhitespace).reverse.dropWhile Char.isWhitespace).reverse

/-- String-level trimming (executable model of `.trim()`). -/
def strTrim (s : String) : String :=
  String.mk (trimChars s.data)

/-- The `Task` SQLModel: integer id, owning user's id, title, optional
description, completion flag, and the two timestamps. -/
structure Task where
  id : Nat
  user_id : String
  title : String
  description : Option String
  completed : Bool
  created_at : Nat
  updated_at : Nat
deriving DecidableEq, Repr

/-- The `TaskCreate` request schema: title plus optional description. -/
structure TaskCreate where
  title : String
  description : Option String
deriving DecidableEq, Repr

/-- The `TaskUpdate` request schema: every field optional (supplied or
omitted). -/
structure TaskUpdate where
  title : Option String
  description : Option String
  completed : Option Bool
deriving DecidableEq, Repr

/-- The error taxonomy surfaced by the API layer. -/
inductive ApiError where
  | unauthorized
  | forbidden
  | notFound
  | validationError
deriving DecidableEq, Repr

/-- The two-clause WHERE filter used by every single-task query pattern in
`schema.md`: `Task.id == task_id, Task.user_id == user_id`. -/
def taskMatch (user_id : String) (task_id : Nat) (t : Task) : Bool :=
  t.id == task_id && t.user_id == user_id

/-- Applying a `TaskUpdate`'s supplied fields to a task and stamping
`updated_at = now`, as `update_task` in `schema.md` does with `setattr` over
the kwargs followed by `task.updated_at = datetime.utcnow()`. -/
def applyFields (f : TaskUpdate) (now : Nat) (t : Task) : Task :=
  { t with
    title := f.title.getD t.title
    description := match f.description with
      | some d => some d
      | none => t.description
    completed := f.completed.getD t.completed
    updated_at := now }

/-- Updating the first task matching the two-clause filter (the `.first()`
row of the SELECT) in place, returning the updated row when one was found
together with the resulting table. -/
def findUpdate (p : Task → Bool) (f : Task → Task) : List Task → Option Task × List Task
  | [] => (none, [])
  | t :: ts =>
    if p t then (some (f t), f t :: ts)
    else
      let r := findUpdate p f ts
      (r.1, t :: r.2)

/-- `update_task` from `schema.md`: select the first row with the matching id
and owner; if present, set the supplied fields, stamp `updated_at`, and
persist; return the row (or `none`) with the resulting table. -/
def update_task (now : Nat) (task_id : Nat) (user_id : String) (fields : TaskUpdate)
    (tasks : List Task) : Option Task × List Task :=
  findUpdate (taskMatch user_id task_id) (applyFields fields now) tasks

/-- Modelled from the spec: `toggleCompletion(owner_id, task_id, explicit?)`
(the PATCH `/complete` route handler is not in the repository). "If `explicit`
is provided, sets completed to that value; if omitted, flips the current
value. Fails with NotFound per the same rule. Sets updated_at=now." -/
def toggleCompletion (now : Nat) (task_id : Nat) (user_id : String)
    (explicit : Option Bool) (tasks : List Task) : Option Task × List Task :=
  findUpdate (taskMatch user_id task_id)
    (fun t => { t with completed := explicit.getD (!t.completed), updated_at := now }) tasks

/-- `delete_task` from `schema.md`: select the first row with the matching id
and owner; if present, delete it and return `true`, else return `false`. -/
def delete_task (task_id : Nat) (user_id : String) : List Task → Bool × List Task
  | [] => (false, [])
  | t :: ts =>
    if taskMatch user_id task_id t then (true, ts)
    else
      let r := delete_task task_id user_id ts
      (r.1, t :: r.2)

/-- The single-task read (GET detail route): first row with the matching id
and owner, `none` when no such row exists. -/
def get_task (task_id : Nat) (user_id : String) (tasks : List Task) : Option Task :=
  tasks.find? (taskMatch user_id task_id)

/-- Ordering relation of `ORDER BY created_at DESC`. -/
def createdDesc (a b : Task) : Prop :=
  b.created_at ≤ a.created_at

instance : DecidableRel createdDesc := fun a b => Nat.decLe b.created_at a.created_at

instance : IsTotal Task createdDesc :=
  ⟨fun a b => Nat.le_total b.created_at a.created_at⟩

instance : IsTrans Task createdDesc :=
  ⟨fun _ _ _ h1 h2 => Nat.le_trans h2 h1⟩

/-- `get_user_tasks` from `schema.md`: all rows whose `user_id` matches,
ordered by `created_at` descending. -/
def get_user_tasks (user_id : String) (tasks : List Task) : List Task :=
  List.insertionSort createdDesc (tasks.filter (fun t => t.user_id == user_id))

/-- The persisted task table together with the `SERIAL` sequence that assigns
the next primary key. -/
structure Store where
  nextId : Nat
  tasks : List Task
deriving DecidableEq, Repr

/-- Modelled from the spec: the centralized title normalization of §4.3 (the
backend route/service code is not in the repository): trim, then require 1–200
characters; the stored value is the trimmed title. -/
def validate_title (title : String) : Except ApiError String :=
  let t := strTrim title
  if t.length = 0 then .error .validationError
  else if 200 < t.length then .error .validationError
  else .ok t

/-- Modelled from the spec: the centralized description normalization of §4.3
(the backend route/service code is not in the repository): an absent
description passes; a supplied one is trimmed and must not exceed 1000
characters. -/
def validate_description : Option String → Except ApiError (Option String)
  | none => .ok none
  | some d =>
    let d' := strTrim d
    if 1000 < d'.length then .error .validationError else .ok (some d')

/-- Modelled from the spec: `create(owner_id, title, description?)` of §4.1
(the backend `routes/tasks.py` is not in the repository): "fails with
ValidationError if title is empty after trim or exceeds 200 characters, or
description exceeds 1000 characters after trim. On success, assigns a new
identifier, sets completed=false, created_at=updated_at=now, returns the new
Task." The new row is appended to the table and the id sequence advances. -/
def storeCreate (owner : String) (td : TaskCreate) (now : Nat) (s : Store) :
    Except ApiError (Task × Store) :=
  match validate_title td.title with
  | .error e => .error e
  | .ok t =>
    match validate_description td.description with
    | .error e => .error e
    | .ok d =>
      let task : Task :=
        { id := s.nextId, user_id := owner, title := t, description := d,
          completed := false, created_at := now, updated_at := now }
      .ok (task, { nextId := s.nextId + 1, tasks := s.tasks ++ [task] })

/-- Modelled from the spec: update "applies the same validation as create to
any supplied title/description" through the centralized routine of §4.3 (the
backend update route is not in the repository); omitted fields are not
validated. -/
def validate_fields (f : TaskUpdate) : Except ApiError TaskUpdate :=
  match ((match f.title with
          | none => .ok none
          | some t => (validate_title t).map some) : Except ApiError (Option String)) with
  | .error e => .error e
  | .ok t =>
    match validate_description f.description with
    | .error e => .error e
    | .ok d => .ok { title := t, description := d, completed := f.completed }

/-- The `create_task` route handler from the backend guidelines: the
Authorization Guard (`if user_id != authenticated_user_id: raise 403
Forbidden`) runs first; only when the path owner equals the token's subject
does the Task Store create run. The store is returned unchanged on any
failure. -/
def create_task (user_id : String) (task_data : TaskCreate)
    (authenticated_user_id : String) (now : Nat) (s : Store) :
    Except ApiError Task × Store :=
  if user_id ≠ authenticated_user_id then (.error .forbidden, s)
  else
    match storeCreate user_id task_data now s with
    | .error e => (.error e, s)
    | .ok (t, s') => (.ok t, s')

/-- The protected `get_tasks` route from `specs/features/authentication.md`:
the same Guard comparison, then the owner's task list. -/
def get_tasks (user_id : String) (authenticated_user_id : String)
    (tasks : List Task) : Except ApiError (List Task) :=
  if user_id ≠ authenticated_user_id then .error .forbidden
  else .ok (get_user_tasks user_id tasks)

/-- Modelled from the spec: the PUT update route (absent from the repository):
Guard, then validation of the supplied fields with the create-time routine
("all validation happens before any write"), then `update_task`; a missing or
foreign row is NotFound. -/
def update_task_route (user_id : String) (task_id : Nat) (f : TaskUpdate)
    (authenticated_user_id : String) (now : Nat) (s : Store) :
    Except ApiError Task × Store :=
  if user_id ≠ authenticated_user_id then (.error .forbidden, s)
  else
    match validate_fields f with
    | .error e => (.error e, s)
    | .ok f' =>
      match update_task now task_id user_id f' s.tasks with
      | (none, _) => (.error .notFound, s)
      | (some t, ts) => (.ok t, { s with tasks := ts })

/-- The payload `TaskForm.handleSubmit` passes to `onSubmit`. -/
structure SubmitData where
  title : String
  description : Option String
deriving DecidableEq, Repr

/-- `TaskForm.handleSubmit`: reject when the trimmed title is empty
("Title is required"); otherwise submit the trimmed title and
`description.trim() || undefined` — an empty-after-trim description becomes
an absent field. -/
def handleSubmit (title description : String) : Option SubmitData :=
  if strTrim title = "" then none
  else
    some { title := strTrim title
           description := if strTrim description = "" then none else some (strTrim description) }

/-- `TaskForm` submission in either mode: the component runs the same
`handleSubmit` routine whether an edit target `task` is present (update) or
absent (create); the mode only selects which `onSubmit` callback receives the
validated payload. -/
def taskFormSubmit (task : Option Task) (title description : String) : Option SubmitData :=
  match task with
  | some _ => handleSubmit title description
  | none => handleSubmit title description

/-- `TaskItem` renders the description paragraph only under the truthiness
test `task.description && ...`: an absent (or empty-string) description
renders nothing. -/
def rendersDescription (t : Task) : Bool :=
  match t.description with
  | none => false
  | some d => d ≠ ""

/-- The filter tabs of the tasks page. -/
inductive TaskFilter where
  | all
  | active
  | completed
deriving DecidableEq, Repr

/-- `filteredTasks` from the tasks page: `active` keeps `!task.completed`,
`completed` keeps `task.completed`, `all` keeps everything. -/
def filteredTasks (filter : TaskFilter) (tasks : List Task) : List Task :=
  tasks.filter (fun task =>
    if filter = TaskFilter.active then !task.completed
    else if filter = TaskFilter.completed then task.completed
    else true)

/-- `activeCount` from the tasks page. -/
def activeCount (tasks : List Task) : Nat :=
  (tasks.filter (fun t => !t.completed)).length

/-- `completedCount` from the tasks page. -/
def completedCount (tasks : List Task) : Nat :=
  (tasks.filter (fun t => t.completed)).length

/-- Decision whether an `Except` result is a success. -/
def exceptOk {α : Type} : Except ApiError α → Bool
  | .ok _ => true
  | .error _ => false

/-- The request-level transition system over the persisted store: each step is
one Task Store operation executed at the current time, and time never moves
backwards between requests. -/
inductive Reachable : Nat → Store → Prop where
  | init : Reachable 0 { nextId := 1, tasks := [] }
  | tick {c s c'} : Reachable c s → c ≤ c' → Reachable c' s
  | create {c s owner td t s'} :
      Reachable c s → storeCreate owner td c s = .ok (t, s') → Reachable c s'
  | update {c s tid uid f} :
      Reachable c s → Reachable c { s with tasks := (update_task c tid uid f s.tasks).2 }
  | toggle {c s tid uid e} :
      Reachable c s → Reachable c { s with tasks := (toggleCompletion c tid uid e s.tasks).2 }
  | del {c s tid uid} :
      Reachable c s → Reachable c { s with tasks := (delete_task tid uid s.tasks).2 }

/-! ### Helper lemmas about the store operations -/

theorem findUpdate_nomatch {p : Task → Bool} {f : Task → Task} {ts : List Task}
    (h : ∀ t ∈ ts, p t = false) : findUpdate p f ts = (none, ts) := by
  induction ts with
  | nil => rfl
  | cons a ts ih =>
    have ha : p a = false := h a (List.mem_cons_self a ts)
    have ih' := ih fun u hu => h u (List.mem_cons_of_mem a hu)
    simp [findUpdate, ha, ih']

theorem delete_nomatch {uid : String} {tid : Nat} {ts : List Task}
    (h : ∀ t ∈ ts, taskMatch uid tid t = false) : delete_task tid uid ts = (false, ts) := by
  induction ts with
  | nil => rfl
  | cons a ts ih =>
    have ha := h a (List.mem_cons_self a ts)
    have ih' := ih fun u hu => h u (List.mem_cons_of_mem a hu)
    simp [delete_task, ha, ih']

theorem findUpdate_fst {p : Task → Bool} {f : Task → Task} {ts : List Task} {t : Task}
    (h : ts.find? p = some t) : (findUpdate p f ts).1 = some (f t) := by
  induction ts with
  | nil => simp [List.find?] at h
  | cons a ts ih =>
    by_cases hp : p a
    · rw [List.find?_cons_of_pos _ hp] at h
      cases h
      simp [findUpdate, hp]
    · rw [List.find?_cons_of_neg _ hp] at h
      simp [findUpdate, hp, ih h]

theorem findUpdate_snd_find? {p : Task → Bool} {f : Task → Task} {ts : List Task} {t : Task}
    (h : ts.find? p = some t) (hf : p (f t) = true) :
    ((findUpdate p f ts).2).find? p = some (f t) := by
  induction ts with
  | nil => simp [List.find?] at h
  | cons a ts ih =>
    by_cases hp : p a
    · rw [List.find?_cons_of_pos _ hp] at h
      cases h
      simp only [findUpdate, hp, if_pos]
      exact List.find?_cons_of_pos _ hf
    · rw [List.find?_cons_of_neg _ hp] at h
      simp only [findUpdate, hp, if_neg, Bool.false_eq_true, not_false_iff]
      rw [List.find?_cons_of_neg _ hp]
      exact ih h

theorem mem_findUpdate {p : Task → Bool} {f : Task → Task} {ts : List Task} {u : Task}
    (h : u ∈ (findUpdate p f ts).2) : u ∈ ts ∨ ∃ t ∈ ts, u = f t := by
  induction ts with
  | nil => simp [findUpdate] at h
  | cons a ts ih =>
    by_cases hp : p a
    · simp only [findUpdate, hp, if_pos, List.mem_cons] at h
      rcases h with h | h
      · exact Or.inr ⟨a, List.mem_cons_self a ts, h⟩
      · exact Or.inl (List.mem_cons_of_mem a h)
    · simp only [findUpdate, hp, if_neg, Bool.false_eq_true, not_false_iff,
        List.mem_cons] at h
      rcases h with h | h
      · exact Or.inl (h ▸ List.mem_cons_self a ts)
      · rcases ih h with h' | ⟨t, ht, hu⟩
        · exact Or.inl (List.mem_cons_of_mem a h')
        · exact Or.inr ⟨t, List.mem_cons_of_mem a ht, hu⟩

theorem mem_delete {uid : String} {tid : Nat} {ts : List Task} {u : Task}
    (h : u ∈ (delete_task tid uid ts).2) : u ∈ ts := by
  induction ts with
  | nil => simp [delete_task] at h
  | cons a ts ih =>
    by_cases hp : taskMatch uid tid a
    · simp only [delete_task, hp, if_pos] at h
      exact List.mem_cons_of_mem a h
    · simp only [delete_task, hp, if_neg, Bool.false_eq_true, not_false_iff,
        List.mem_cons] at h
      rcases h with h | h
      · exact h ▸ List.mem_cons_self a ts
      · exact List.mem_cons_of_mem a (ih h)

theorem storeCreate_ok {owner : String} {td : TaskCreate} {now : Nat} {s : Store}
    {t : Task} {s' : Store} (h : storeCreate owner td now s = .ok (t, s')) :
    t.completed = false ∧ t.created_at = now ∧ t.updated_at = now ∧
    t.id = s.nextId ∧ t.user_id = owner ∧
    s' = { nextId := s.nextId + 1, tasks := s.tasks ++ [t] } := by
  unfold storeCreate at h
  cases hv : validate_title td.title with
  | error e => rw [hv] at h; cases h
  | ok ti =>
    rw [hv] at h
    cases hd : validate_description td.description with
    | error e => rw [hd] at h; cases h
    | ok de =>
      rw [hd] at h
      cases h
      exact ⟨rfl, rfl, rfl, rfl, rfl, rfl⟩

theorem taskMatch_eq_false {uid : String} {tid : Nat} {t : Task}
    (h : t.id = tid → t.user_id ≠ uid) : taskMatch uid tid t = false := by
  by_cases hid : t.id = tid
  · have hu := h hid
    simp [taskMatch, hid, hu]
  · simp [taskMatch, hid]

theorem reachable_timestamps {c : Nat} {s : Store} (h : Reachable c s) :
    ∀ t ∈ s.tasks, t.created_at ≤ t.updated_at ∧ t.updated_at ≤ c := by
  induction h with
  | init => intro t ht; simp at ht
  | tick _ hle ih => exact fun t ht => ⟨(ih t ht).1, le_trans (ih t ht).2 hle⟩
  | create _ hc ih =>
    intro t ht
    obtain ⟨_, hcr, hup, _, _, hs'⟩ := storeCreate_ok hc
    rw [hs'] at ht
    simp only [List.mem_append, List.mem_singleton] at ht
    rcases ht with ht | rfl
    · exact ih t ht
    · exact ⟨le_of_eq (hcr.trans hup.symm), le_of_eq hup⟩
  | update _ ih =>
    intro u hu
    rcases mem_findUpdate hu with h1 | ⟨t0, ht0, rfl⟩
    · exact ih u h1
    · have h0 := ih t0 ht0
      exact ⟨le_trans h0.1 h0.2, le_refl _⟩
  | toggle _ ih =>
    intro u hu
    rcases mem_findUpdate hu with h1 | ⟨t0, ht0, rfl⟩
    · exact ih u h1
    · have h0 := ih t0 ht0
      exact ⟨le_trans h0.1 h0.2, le_refl _⟩
  | del _ ih =>
    intro u hu
    exact ih u (mem_delete hu)

/-! ### The claims -/

/-- C1: for every task request carrying a verified token whose subject is
`authenticated_user_id` and a path naming owner `user_id`, the handler
proceeds to the Task Store iff the two identifiers are equal; when they
differ it fails with Forbidden and the store is untouched (no Task Store
operation executes). -/
theorem guard_allows_iff_ids_match
    (user_id authenticated_user_id : String) (td : TaskCreate) (now : Nat)
    (s : Store) (tasks : List Task) :
    (user_id = authenticated_user_id →
      create_task user_id td authenticated_user_id now s =
        (match storeCreate user_id td now s with
         | .error e => (Except.error e, s)
         | .ok (t, s') => (Except.ok t, s')) ∧
      get_tasks user_id authenticated_user_id tasks =
        .ok (get_user_tasks user_id tasks)) ∧
    (user_id ≠ authenticated_user_id →
      create_task user_id td authenticated_user_id now s = (.error .forbidden, s) ∧
      get_tasks user_id authenticated_user_id tasks = .error .forbidden) := by
  constructor
  · intro heq
    exact ⟨by simp [create_task, heq], by simp [get_tasks, heq]⟩
  · intro hne
    exact ⟨by simp [create_task, hne], by simp [get_tasks, hne]⟩

/-- Witness for C1: with matching identifiers the create proceeds and returns
the stored task; with mismatched identifiers both handlers fail with
Forbidden and the store is unchanged. -/
theorem guard_allows_iff_ids_match_witness :
    create_task "alice" ⟨"Buy milk", none⟩ "alice" 5 ⟨1, []⟩ =
      (.ok { id := 1, user_id := "alice", title := "Buy milk", description := none,
             completed := false, created_at := 5, updated_at := 5 },
       { nextId := 2,
         tasks := [{ id := 1, user_id := "alice", title := "Buy milk",
                     description := none, completed := false, created_at := 5,
                     updated_at := 5 }] }) ∧
    create_task "alice" ⟨"Buy milk", none⟩ "mallory" 5 ⟨1, []⟩ =
      (.error .forbidden, ⟨1, []⟩) ∧
    get_tasks "alice" "mallory" [] = .error .forbidden :=
  ⟨((guard_allows_iff_ids_match "alice" "alice" ⟨"Buy milk", none⟩ 5 ⟨1, []⟩ []).1
      rfl).1.trans rfl,
   ((guard_allows_iff_ids_match "alice" "mallory" ⟨"Buy milk", none⟩ 5 ⟨1, []⟩ []).2
      (by decide)).1,
   ((guard_allows_iff_ids_match "alice" "mallory" ⟨"Buy milk", none⟩ 5 ⟨1, []⟩ []).2
      (by decide)).2⟩

/-- C2: when every task in the store bearing the requested id belongs to a
different owner — which covers both an existing task owned by someone else and
a task that does not exist at all — get, update, toggleCompletion and delete
all produce the not-found result and leave the store unchanged, so the two
runs are observably identical. -/
theorem wrong_owner_indistinguishable_from_absent
    (tasks : List Task) (owner_id : String) (task_id : Nat) (f : TaskUpdate)
    (e : Option Bool) (now : Nat)
    (h : ∀ t ∈ tasks, t.id = task_id → t.user_id ≠ owner_id) :
    get_task task_id owner_id tasks = none ∧
    update_task now task_id owner_id f tasks = (none, tasks) ∧
    toggleCompletion now task_id owner_id e tasks = (none, tasks) ∧
    delete_task task_id owner_id tasks = (false, tasks) := by
  have hm : ∀ t ∈ tasks, taskMatch owner_id task_id t = false :=
    fun t ht => taskMatch_eq_false (h t ht)
  refine ⟨?_, ?_, ?_, ?_⟩
  · exact List.find?_eq_none.mpr fun t ht => by simp [hm t ht]
  · exact findUpdate_nomatch hm
  · exact findUpdate_nomatch hm
  · exact delete_nomatch hm

/-- Witness for C2: a store holding task 1 owned by bob, queried by alice:
every operation reports not-found and the store is unchanged, exactly as on
an empty store. -/
theorem wrong_owner_indistinguishable_from_absent_witness :
    get_task 1 "alice" [{ id := 1, user_id := "bob", title := "secret",
                          description := none, completed := false, created_at := 0,
                          updated_at := 0 }] = none ∧
    update_task 3 1 "alice" ⟨some "x", none, none⟩
        [{ id := 1, user_id := "bob", title := "secret", description := none,
           completed := false, created_at := 0, updated_at := 0 }] =
      (none, [{ id := 1, user_id := "bob", title := "secret", description := none,
                completed := false, created_at := 0, updated_at := 0 }]) ∧
    toggleCompletion 3 1 "alice" none
        [{ id := 1, user_id := "bob", title := "secret", description := none,
           completed := false, created_at := 0, updated_at := 0 }] =
      (none, [{ id := 1, user_id := "bob", title := "secret", description := none,
                completed := false, created_at := 0, updated_at := 0 }]) ∧
    delete_task 1 "alice"
        [{ id := 1, user_id := "bob", title := "secret", description := none,
           completed := false, created_at := 0, updated_at := 0 }] =
      (false, [{ id := 1, user_id := "bob", title := "secret", description := none,
                 completed := false, created_at := 0, updated_at := 0 }]) :=
  wrong_owner_indistinguishable_from_absent
    [{ id := 1, user_id := "bob", title := "secret", description := none,
       completed := false, created_at := 0, updated_at := 0 }]
    "alice" 1 ⟨some "x", none, none⟩ none 3 (by decide)

/-- C3: the owner-scoped list contains only the owner's tasks, is ordered by
`created_at` descending (newest first), and is the empty list — not an
error — when the owner has no tasks. -/
theorem list_owner_scoped_sorted (owner_id : String) (tasks : List Task) :
    (∀ t ∈ get_user_tasks owner_id tasks, t.user_id = owner_id) ∧
    List.Sorted createdDesc (get_user_tasks owner_id tasks) ∧
    ((∀ t ∈ tasks, t.user_id ≠ owner_id) → get_user_tasks owner_id tasks = []) := by
  refine ⟨?_, ?_, ?_⟩
  · intro t ht
    rw [get_user_tasks, List.mem_insertionSort] at ht
    have hp := List.of_mem_filter ht
    simpa using hp
  · exact List.sorted_insertionSort _ _
  · intro h
    rw [get_user_tasks, List.filter_eq_nil_iff.mpr fun t ht => by simp [h t ht]]
    rfl

/-- Witness for C3: bob's store queried for alice's tasks yields the empty
list. -/
theorem list_owner_scoped_sorted_witness :
    get_user_tasks "alice"
      [{ id := 1, user_id := "bob", title := "secret", description := none,
         completed := false, created_at := 0, updated_at := 0 }] = [] :=
  (list_owner_scoped_sorted "alice"
    [{ id := 1, user_id := "bob", title := "secret", description := none,
       completed := false, created_at := 0, updated_at := 0 }]).2.2 (by decide)

/-- C4: a successful create assigns the sequence's fresh identifier and
returns a task with `completed = false` and `created_at = updated_at`, and a
get of that identifier by the owner on the resulting store returns exactly
that task. -/
theorem create_then_get (owner : String) (td : TaskCreate) (now : Nat) (s : Store)
    (t : Task) (s' : Store)
    (hids : ∀ u ∈ s.tasks, u.id < s.nextId)
    (h : storeCreate owner td now s = .ok (t, s')) :
    t.completed = false ∧ t.created_at = t.updated_at ∧
    (∀ u ∈ s.tasks, u.id ≠ t.id) ∧
    get_task t.id owner s'.tasks = some t := by
  obtain ⟨hc, hcr, hup, hid, huid, hs'⟩ := storeCreate_ok h
  refine ⟨hc, hcr.trans hup.symm,
    fun u hu => by rw [hid]; exact Nat.ne_of_lt (hids u hu), ?_⟩
  rw [hs']
  show (s.tasks ++ [t]).find? (taskMatch owner t.id) = some t
  rw [List.find?_append]
  have h1 : s.tasks.find? (taskMatch owner t.id) = none := by
    apply List.find?_eq_none.mpr
    intro u hu
    have hne : u.id ≠ t.id := by rw [hid]; exact Nat.ne_of_lt (hids u hu)
    simp [taskMatch, hne]
  rw [h1]
  simp [List.find?, taskMatch, huid]

/-- Witness for C4: creating "Buy milk" for alice at time 5 in a fresh store
yields task 1 with `completed = false`, equal timestamps, and a successful
get. -/
theorem create_then_get_witness :
    ({ id := 1, user_id := "alice", title := "Buy milk", description := none,
       completed := false, created_at := 5, updated_at := 5 } : Task).completed = false ∧
    ({ id := 1, user_id := "alice", title := "Buy milk", description := none,
       completed := false, created_at := 5, updated_at := 5 } : Task).created_at =
      ({ id := 1, user_id := "alice", title := "Buy milk", description := none,
         completed := false, created_at := 5, updated_at := 5 } : Task).updated_at ∧
    (∀ u ∈ ({ nextId := 1, tasks := [] } : Store).tasks, u.id ≠ 1) ∧
    get_task 1 "alice"
      ({ nextId := 2,
         tasks := [{ id := 1, user_id := "alice", title := "Buy milk",
                     description := none, completed := false, created_at := 5,
                     updated_at := 5 }] } : Store).tasks =
      some { id := 1, user_id := "alice", title := "Buy milk", description := none,
             completed := false, created_at := 5, updated_at := 5 } :=
  create_then_get "alice" ⟨"Buy milk", none⟩ 5 ⟨1, []⟩
    { id := 1, user_id := "alice", title := "Buy milk", description := none,
      completed := false, created_at := 5, updated_at := 5 }
    { nextId := 2,
      tasks := [{ id := 1, user_id := "alice", title := "Buy milk",
                  description := none, completed := false, created_at := 5,
                  updated_at := 5 }] }
    (by intro u hu; simp at hu) rfl

theorem validate_title_cases (title : String) :
    validate_title title = .ok (strTrim title) ∨
    validate_title title = .error .validationError := by
  simp only [validate_title]
  split_ifs <;> simp

theorem validate_description_error {d : String}
    (h : 1000 < (strTrim d).length) :
    validate_description (some d) = .error .validationError := by
  unfold validate_description
  simp [h]

/-- C5: a create whose title trims to exactly 200 characters succeeds, one
whose title trims to 201 characters fails with ValidationError, one whose
title is empty or whitespace-only after trimming fails with ValidationError,
and one whose description exceeds 1000 characters after trimming fails with
ValidationError. -/
theorem create_validation_boundaries (owner : String) (title desc : String)
    (now : Nat) (s : Store) :
    ((strTrim title).length = 200 →
      exceptOk (storeCreate owner ⟨title, none⟩ now s) = true) ∧
    ((strTrim title).length = 201 →
      storeCreate owner ⟨title, none⟩ now s = .error .validationError) ∧
    (strTrim title = "" →
      storeCreate owner ⟨title, none⟩ now s = .error .validationError) ∧
    (1000 < (strTrim desc).length →
      storeCreate owner ⟨title, some desc⟩ now s = .error .validationError) := by
  refine ⟨?_, ?_, ?_, ?_⟩
  · intro h
    simp [storeCreate, validate_title, validate_description, h, exceptOk]
  · intro h
    simp [storeCreate, validate_title, h]
  · intro h
    simp [storeCreate, validate_title, h]
  · intro h
    rcases validate_title_cases title with hv | hv <;>
      simp [storeCreate, hv, validate_description_error h]

/-- Witness for C5: a 200-character title is accepted, a 201-character title,
a whitespace-only title, and a 1001-character description are each rejected
with ValidationError. -/
theorem create_validation_boundaries_witness :
    exceptOk (storeCreate "alice" ⟨String.mk (List.replicate 200 'a'), none⟩ 0 ⟨1, []⟩) =
      true ∧
    storeCreate "alice" ⟨String.mk (List.replicate 201 'a'), none⟩ 0 ⟨1, []⟩ =
      .error .validationError ∧
    storeCreate "alice" ⟨"   ", none⟩ 0 ⟨1, []⟩ = .error .validationError ∧
    storeCreate "alice" ⟨"t", some (String.mk (List.replicate 1001 'b'))⟩ 0 ⟨1, []⟩ =
      .error .validationError :=
  ⟨(create_validation_boundaries "alice" (String.mk (List.replicate 200 'a')) "" 0
      ⟨1, []⟩).1 (by decide),
   (create_validation_boundaries "alice" (String.mk (List.replicate 201 'a')) "" 0
      ⟨1, []⟩).2.1 (by decide),
   (create_validation_boundaries "alice" "   " "" 0 ⟨1, []⟩).2.2.1 (by decide),
   (create_validation_boundaries "alice" "t" (String.mk (List.replicate 1001 'b')) 0
      ⟨1, []⟩).2.2.2 (by decide)⟩

/-- C6: the validation applied at update time is the same centralized routine
as at create time: the task form runs one `handleSubmit` whether or not an
edit target is present, and on the backend the supplied-fields validation of
update accepts a (title, description) pair exactly when create accepts it. -/
theorem create_update_validation_centralized (t : Task) (title desc : String)
    (owner : String) (now : Nat) (s : Store) :
    taskFormSubmit (some t) title desc = taskFormSubmit none title desc ∧
    exceptOk (validate_fields
        { title := some title, description := some desc, completed := none }) =
      exceptOk (storeCreate owner { title := title, description := some desc } now s) := by
  refine ⟨rfl, ?_⟩
  unfold validate_fields storeCreate
  cases hv : validate_title title with
  | error e => simp [hv, Except.map, exceptOk]
  | ok ti =>
    cases hd : validate_description (some desc) with
    | error e => simp [hv, hd, Except.map, exceptOk]
    | ok de => simp [hv, hd, Except.map, exceptOk]

/-- C7: toggling a task the caller owns with an explicit value sets
`completed` to that value; with the value omitted it flips `completed`, two
successive omitted-value toggles restore the original `completed` value, and
each successful toggle stamps `updated_at` with the current time, advancing
it whenever time has moved on. -/
theorem toggle_completion_modes (tasks : List Task) (uid : String) (tid : Nat)
    (t : Task) (b : Bool) (now1 now2 : Nat)
    (h : tasks.find? (taskMatch uid tid) = some t) :
    (toggleCompletion now1 tid uid (some b) tasks).1 =
      some { t with completed := b, updated_at := now1 } ∧
    (toggleCompletion now1 tid uid none tasks).1 =
      some { t with completed := !t.completed, updated_at := now1 } ∧
    (toggleCompletion now2 tid uid none
        (toggleCompletion now1 tid uid none tasks).2).1 =
      some { t with completed := t.completed, updated_at := now2 } ∧
    (t.updated_at < now1 → ∀ u, (toggleCompletion now1 tid uid none tasks).1 = some u →
      t.updated_at < u.updated_at) := by
  have hp : taskMatch uid tid t = true := List.find?_some h
  have hp1 : taskMatch uid tid { t with completed := !t.completed, updated_at := now1 } =
      true := by simpa [taskMatch] using hp
  refine ⟨findUpdate_fst h, findUpdate_fst h, ?_, ?_⟩
  · have h2 : ((toggleCompletion now1 tid uid none tasks).2).find? (taskMatch uid tid) =
        some { t with completed := !t.completed, updated_at := now1 } :=
      findUpdate_snd_find? h hp1
    have h3 := findUpdate_fst
      (f := fun u => { u with completed := !u.completed, updated_at := now2 }) h2
    simpa [Bool.not_not] using h3
  · intro hlt u hu
    have h1 : (toggleCompletion now1 tid uid none tasks).1 =
        some { t with completed := !t.completed, updated_at := now1 } :=
      findUpdate_fst h
    rw [h1] at hu
    cases hu
    exact hlt

/-- Witness for C7: toggling alice's task 1 (initially incomplete) twice
without an explicit value restores `completed = false` while the timestamps
advance, and an explicit `true` sets `completed = true`. -/
theorem toggle_completion_modes_witness :
    (toggleCompletion 3 1 "alice" (some true)
        [{ id := 1, user_id := "alice", title := "Buy milk", description := none,
           completed := false, created_at := 0, updated_at := 0 }]).1 =
      some { id := 1, user_id := "alice", title := "Buy milk", description := none,
             completed := true, created_at := 0, updated_at := 3 } ∧
    (toggleCompletion 3 1 "alice" none
        [{ id := 1, user_id := "alice", title := "Buy milk", description := none,
           completed := false, created_at := 0, updated_at := 0 }]).1 =
      some { id := 1, user_id := "alice", title := "Buy milk", description := none,
             completed := true, created_at := 0, updated_at := 3 } ∧
    (toggleCompletion 4 1 "alice" none
        (toggleCompletion 3 1 "alice" none
          [{ id := 1, user_id := "alice", title := "Buy milk", description := none,
             completed := false, created_at := 0, updated_at := 0 }]).2).1 =
      some { id := 1, user_id := "alice", title := "Buy milk", description := none,
             completed := false, created_at := 0, updated_at := 4 } :=
  ⟨(toggle_completion_modes
      [{ id := 1, user_id := "alice", title := "Buy milk", description := none,
         completed := false, created_at := 0, updated_at := 0 }]
      "alice" 1
      { id := 1, user_id := "alice", title := "Buy milk", description := none,
        completed := false, created_at := 0, updated_at := 0 }
      true 3 4 (by decide)).1,
   (toggle_completion_modes
      [{ id := 1, user_id := "alice", title := "Buy milk", description := none,
         completed := false, created_at := 0, updated_at := 0 }]
      "alice" 1
      { id := 1, user_id := "alice", title := "Buy milk", description := none,
        completed := false, created_at := 0, updated_at := 0 }
      true 3 4 (by decide)).2.1,
   (toggle_completion_modes
      [{ id := 1, user_id := "alice", title := "Buy milk", description := none,
         completed := false, created_at := 0, updated_at := 0 }]
      "alice" 1
      { id := 1, user_id := "alice", title := "Buy milk", description := none,
        completed := false, created_at := 0, updated_at := 0 }
      true 3 4 (by decide)).2.2.1⟩

/-- C8: in every reachable store state every task satisfies
`created_at ≤ updated_at`; every successful field update and every successful
toggle stamps `updated_at` with the current time while leaving `created_at`
unchanged. -/
theorem task_timestamp_invariant :
    (∀ (c : Nat) (s : Store), Reachable c s →
      ∀ t ∈ s.tasks, t.created_at ≤ t.updated_at) ∧
    (∀ (f : TaskUpdate) (now : Nat) (t : Task),
      (applyFields f now t).updated_at = now ∧
      (applyFields f now t).created_at = t.created_at) ∧
    (∀ (now tid : Nat) (uid : String) (f : TaskUpdate) (ts : List Task) (t u : Task),
      ts.find? (taskMatch uid tid) = some t →
      (update_task now tid uid f ts).1 = some u →
      u.updated_at = now ∧ u.created_at = t.created_at) ∧
    (∀ (now tid : Nat) (uid : String) (e : Option Bool) (ts : List Task) (t u : Task),
      ts.find? (taskMatch uid tid) = some t →
      (toggleCompletion now tid uid e ts).1 = some u →
      u.updated_at = now ∧ u.created_at = t.created_at) := by
  refine ⟨?_, ?_, ?_, ?_⟩
  · exact fun c s h t ht => (reachable_timestamps h t ht).1
  · exact fun f now t => ⟨rfl, rfl⟩
  · intro now tid uid f ts t u hf hu
    have h1 : (update_task now tid uid f ts).1 = some (applyFields f now t) :=
      findUpdate_fst hf
    rw [h1] at hu
    cases hu
    exact ⟨rfl, rfl⟩
  · intro now tid uid e ts t u hf hu
    have h1 : (toggleCompletion now tid uid e ts).1 =
        some { t with completed := e.getD (!t.completed), updated_at := now } :=
      findUpdate_fst hf
    rw [h1] at hu
    cases hu
    exact ⟨rfl, rfl⟩

/-- Witness for C8: the store reached by creating "Buy milk" at time 5 (after
time has ticked forward from the initial state) satisfies the timestamp
invariant, and a concrete update and toggle at time 7 stamp `updated_at = 7`
while keeping `created_at = 5`. -/
theorem task_timestamp_invariant_witness :
    (∀ t ∈ ({ nextId := 2,
              tasks := [{ id := 1, user_id := "alice", title := "Buy milk",
                          description := none, completed := false, created_at := 5,
                          updated_at := 5 }] } : Store).tasks,
      t.created_at ≤ t.updated_at) ∧
    ({ id := 1, user_id := "alice", title := "new", description := none,
       completed := false, created_at := 5, updated_at := 7 } : Task).updated_at = 7 ∧
    ({ id := 1, user_id := "alice", title := "new", description := none,
       completed := false, created_at := 5, updated_at := 7 } : Task).created_at = 5 ∧
    ({ id := 1, user_id := "alice", title := "Buy milk", description := none,
       completed := true, created_at := 5, updated_at := 7 } : Task).updated_at = 7 ∧
    ({ id := 1, user_id := "alice", title := "Buy milk", description := none,
       completed := true, created_at := 5, updated_at := 7 } : Task).created_at = 5 := by
  have hcr : storeCreate "alice" ⟨"Buy milk", none⟩ 5 ⟨1, []⟩ =
      Except.ok
        ({ id := 1, user_id := "alice", title := "Buy milk", description := none,
           completed := false, created_at := 5, updated_at := 5 },
         { nextId := 2,
           tasks := [{ id := 1, user_id := "alice", title := "Buy milk",
                       description := none, completed := false, created_at := 5,
                       updated_at := 5 }] }) := rfl
  refine ⟨task_timestamp_invariant.1 5 _
      (Reachable.create (Reachable.tick Reachable.init (by decide)) hcr), ?_⟩
  have h3 := task_timestamp_invariant.2.2.1 7 1 "alice" ⟨some "new", none, none⟩
    [{ id := 1, user_id := "alice", title := "Buy milk", description := none,
       completed := false, created_at := 5, updated_at := 5 }]
    { id := 1, user_id := "alice", title := "Buy milk", description := none,
      completed := false, created_at := 5, updated_at := 5 }
    { id := 1, user_id := "alice", title := "new", description := none,
      completed := false, created_at := 5, updated_at := 7 }
    (by decide) rfl
  have h4 := task_timestamp_invariant.2.2.2 7 1 "alice" none
    [{ id := 1, user_id := "alice", title := "Buy milk", description := none,
       completed := false, created_at := 5, updated_at := 5 }]
    { id := 1, user_id := "alice", title := "Buy milk", description := none,
      completed := false, created_at := 5, updated_at := 5 }
    { id := 1, user_id := "alice", title := "Buy milk", description := none,
      completed := true, created_at := 5, updated_at := 7 }
    (by decide) rfl
  exact ⟨h3.1, h3.2, h4.1, h4.2⟩

/-- C9: the task form submits a whitespace-only or empty description as an
absent field (never an empty string) and otherwise submits the trimmed
description; a task whose description is absent renders no description, while
a task with a non-empty description renders one. -/
theorem description_absent_not_empty (title desc : String) (t : Task) (d : String) :
    (strTrim title ≠ "" → strTrim desc = "" →
      handleSubmit title desc = some { title := strTrim title, description := none }) ∧
    (strTrim title ≠ "" → strTrim desc ≠ "" →
      handleSubmit title desc =
        some { title := strTrim title, description := some (strTrim desc) }) ∧
    (t.description = none → rendersDescription t = false) ∧
    (t.description = some d → d ≠ "" → rendersDescription t = true) := by
  refine ⟨?_, ?_, ?_, ?_⟩
  · intro ht hd
    simp [handleSubmit, ht, hd]
  · intro ht hd
    simp [handleSubmit, ht, hd]
  · intro h
    simp [rendersDescription, h]
  · intro h hd
    simp [rendersDescription, h, hd]

/-- Witness for C9: a whitespace-only description is submitted as absent, a
padded one is submitted trimmed, and rendering shows a description exactly
when a non-empty one is present. -/
theorem description_absent_not_empty_witness :
    handleSubmit "Buy milk" "   " = some { title := "Buy milk", description := none } ∧
    handleSubmit "Buy milk" " x " =
      some { title := "Buy milk", description := some "x" } ∧
    rendersDescription { id := 1, user_id := "alice", title := "Buy milk",
                         description := none, completed := false, created_at := 0,
                         updated_at := 0 } = false ∧
    rendersDescription { id := 1, user_id := "alice", title := "Buy milk",
                         description := some "x", completed := false, created_at := 0,
                         updated_at := 0 } = true :=
  ⟨(description_absent_not_empty "Buy milk" "   "
      { id := 1, user_id := "alice", title := "Buy milk", description := none,
        completed := false, created_at := 0, updated_at := 0 } "x").1
      (by decide) (by decide),
   (description_absent_not_empty "Buy milk" " x "
      { id := 1, user_id := "alice", title := "Buy milk", description := none,
        completed := false, created_at := 0, updated_at := 0 } "x").2.1
      (by decide) (by decide),
   (description_absent_not_empty "Buy milk" "   "
      { id := 1, user_id := "alice", title := "Buy milk", description := none,
        completed := false, created_at := 0, updated_at := 0 } "x").2.2.1 rfl,
   (description_absent_not_empty "Buy milk" "   "
      { id := 1, user_id := "alice", title := "Buy milk", description := some "x",
        completed := false, created_at := 0, updated_at := 0 } "x").2.2.2 rfl
      (by decide)⟩

/-- C10: the active filter selects exactly the incomplete tasks, the
completed filter exactly the completed ones, the all filter returns the list
unchanged, the active and completed counts sum to the total, and both
filtered lists are sublists (relative order preserved) of the original. -/
theorem filter_partition (tasks : List Task) :
    (∀ t : Task, t ∈ filteredTasks .active tasks ↔ t ∈ tasks ∧ t.completed = false) ∧
    (∀ t : Task, t ∈ filteredTasks .completed tasks ↔ t ∈ tasks ∧ t.completed = true) ∧
    filteredTasks .all tasks = tasks ∧
    activeCount tasks + completedCount tasks = tasks.length ∧
    (filteredTasks .active tasks).Sublist tasks ∧
    (filteredTasks .completed tasks).Sublist tasks := by
  refine ⟨?_, ?_, ?_, ?_, ?_, ?_⟩
  · intro t
    simp [filteredTasks, List.mem_filter]
  · intro t
    simp [filteredTasks, List.mem_filter]
  · exact List.filter_eq_self.mpr fun a _ => rfl
  · induction tasks with
    | nil => rfl
    | cons a ts ih =>
      cases hc : a.completed <;>
        simp [activeCount, completedCount, List.filter_cons, hc] at ih ⊢ <;>
        omega
  · exact List.filter_sublist _
  · exact List.filter_sublist _

end TodoApp
